import Mathlib

/-!
Shallow embedding of the moderation decision engine and the per-session
streaming-chunk pipeline of the VN-Speech-Guardian ai-worker
(src/apps/ai-worker/app).  Scores are modelled as rationals, byte payloads
as lists of naturals, and the in-memory session table as an association
list where assignment prepends a binding (lookup returns the most recent
binding, which models Python dict overwrite).
-/

namespace VSG

/-- A character is lowered the way Python str.lower lowers an ASCII letter.
The keyword lists of the source are entirely lower case, so the ASCII
fragment is what the keyword checks exercise; non-ASCII characters are kept
as they are. -/
def lowerChar (c : Char) : Char :=
  if 65 ≤ c.toNat ∧ c.toNat ≤ 90 then Char.ofNat (c.toNat + 32) else c

/-- Embedding of Python s.lower() (ASCII fragment, see lowerChar). -/
def pyLower (s : String) : String :=
  ⟨s.data.map lowerChar⟩

/-- True when the first list is an initial segment of the second. -/
def beginsWith : List Char → List Char → Bool
  | [], _ => true
  | _ :: _, [] => false
  | a :: as, b :: bs => a = b && beginsWith as bs

/-- Substring containment on character lists: Python needle in hay.
The empty needle is contained in every string, as in Python. -/
def containsSub (hay needle : List Char) : Bool :=
  beginsWith needle hay ||
    match hay with
    | [] => false
    | _ :: t => containsSub t needle

/-- Embedding of the Python membership test needle in hay on strings. -/
def strContains (hay needle : String) : Bool :=
  containsSub hay.data needle.data

/-- Embedding of any(k in text for k in keys). -/
def kwMatch (keys : List String) (text : String) : Bool :=
  keys.any fun k => strContains text k

/-- A character Python str.strip removes: the ASCII whitespace characters. -/
def pyIsSpace (c : Char) : Bool :=
  c = ' ' || c = '\t' || c = '\n' || c = '\r' || c = Char.ofNat 11 || c = Char.ofNat 12

/-- Embedding of Python s.strip(): drop whitespace from both ends. -/
def pyStrip (s : String) : String :=
  ⟨((s.data.dropWhile pyIsSpace).reverse.dropWhile pyIsSpace).reverse⟩

/-- Embedding of Python s[:n]: the first n characters of s. -/
def strTake (s : String) (n : Nat) : String :=
  ⟨s.data.take n⟩

/-- One classification result, (label, score), as produced by
services/bert_service.py.  Scores are rationals standing for the
Python floats. -/
structure ModResult where
  label : String
  score : ℚ
deriving DecidableEq, Repr

/-- Block keyword list of the heuristic path, bert_service.py lines 13-17. -/
def heuristicBlockKeys : List String :=
  ["đồ ngu", "đồ khốn", "đồ mất dạy", "mất dạy", "khốn nạn",
   "chửi", "chửi bậy", "cút", "đm", "dm", "dmm", "cc",
   "fuck", "wtf"]

/-- Warn keyword list shared by both paths, bert_service.py lines 19 and 104. -/
def warnKeys : List String :=
  ["cảnh báo", "warning"]

/-- Block keyword list of the model-assisted path, bert_service.py
lines 100-103 (hard_block). -/
def hardBlockKeys : List String :=
  ["đồ ngu", "đồ khốn", "đồ mất dạy", "mất dạy", "khốn nạn",
   "đm", "dm", "dmm", "cc", "fuck", "f**k", "f***", "wtf"]

/-- Embedding of _heuristic in services/bert_service.py: per input, block
keyword containment on the lowered text gives (block, 0.95), else warn
keyword containment gives (warn, 0.8), else (safe, 0.98). -/
def heuristicResults (batch : List String) : List ModResult :=
  batch.map fun s =>
    let sl := pyLower s
    if kwMatch heuristicBlockKeys sl then ⟨"block", mkRat 95 100⟩
    else if kwMatch warnKeys sl then ⟨"warn", mkRat 8 10⟩
    else ⟨"safe", mkRat 98 100⟩

/-- Configuration values consumed by the core.  labelMap embeds
Cfg.LABEL_MAP of app/core/config.py (default safe 0, warn 1, block 2).
Modelled from the spec: blockThreshold, warnThreshold, asrMinIntervalMs and
asrRunMod stand for PHOBERT_BLOCK_THRESHOLD, PHOBERT_WARN_THRESHOLD,
ASR_MIN_INTERVAL_MS and ASR_RUN_MOD, which the routers read and the tests
assert but which are absent from the Cfg class under src; the spec lists
them as runtime-configurable values (thresholds in [0,1], interval in
milliseconds with 0 disabling, a moderation-enabled flag). -/
structure Cfg where
  labelMap : List (String × Nat)
  blockThreshold : ℚ
  warnThreshold : ℚ
  asrMinIntervalMs : Int
  asrRunMod : Bool

/-- Embedding of the inverse env map {v: k for k, v in cfg.LABEL_MAP.items()}
built at bert_service.py lines 45, 69 and 81. -/
def invMap (lm : List (String × Nat)) : List (Nat × String) :=
  lm.map fun kv => (kv.2, kv.1)

/-- A raw id2label table as found in a label source: keys already coerced to
integers, values either label strings or numeric codes (bert_service.py
normalization loops, lines 46-52 and 70-75). -/
abbrev RawTable := List (Nat × (String ⊕ Nat))

/-- Normalization of a raw id2label table, bert_service.py lines 44-53 and
68-76: a string value is kept; a numeric value is translated through the
inverse of the configured fallback map, defaulting to its decimal string. -/
def normalizeRaw (lm : List (String × Nat)) (raw : RawTable) : List (Nat × String) :=
  raw.map fun kv =>
    (kv.1,
      match kv.2 with
      | Sum.inl s => s
      | Sum.inr n => (List.lookup n (invMap lm)).getD (toString n))

/-- Outcome of attempting one label source: Except.error models an exception
raised while probing the source (swallowed by the except blocks at
bert_service.py lines 54-55 and 77-78); Except.ok none models an absent or
empty source (the isinstance-and-nonempty guards); Except.ok (some raw)
models a usable table. -/
abbrev SrcAttempt := Except Unit (Option RawTable)

/-- Embedding of the id2label resolution at bert_service.py lines 36-81:
try the classifier metadata (step 1), then the config manifest colocated
with the assets (step 2), and fall back to the inverse of the configured
label map (step 3).  A source that raised or is absent leaves id2label_map
at None and resolution moves on. -/
def resolveId2Label (lm : List (String × Nat)) (metaSrc manifestSrc : SrcAttempt) :
    List (Nat × String) :=
  match metaSrc with
  | Except.ok (some raw) => normalizeRaw lm raw
  | _ =>
    match manifestSrc with
    | Except.ok (some raw) => normalizeRaw lm raw
    | _ => invMap lm

/-- Embedding of idx = int(max(range(len(p)), key=lambda ii: p[ii])) at
bert_service.py line 114: the first index holding the maximal probability
(Python max with a key keeps the earliest maximizer). -/
def pyArgmax (p : List ℚ) : Nat :=
  (p.enum.foldl (fun best iv => if best.2 < iv.2 then iv else best) (0, p.headD 0)).1

/-- Embedding of model_score = float(p[idx]), bert_service.py line 116. -/
def modelScore (p : List ℚ) : ℚ :=
  p.getD (pyArgmax p) 0

/-- Embedding of model_label = id2label_map.get(idx, str(idx)),
bert_service.py line 115. -/
def modelLabel (m : List (Nat × String)) (p : List ℚ) : String :=
  (List.lookup (pyArgmax p) m).getD (toString (pyArgmax p))

/-- Embedding of the label_probs dict built at bert_service.py lines
108-111.  The dict assigns entries left to right with later writes winning,
so the enumerated list is reversed and lookup returns the last write. -/
def labelProbsOf (m : List (Nat × String)) (p : List ℚ) : List (String × ℚ) :=
  (p.enum.map fun iv => ((List.lookup iv.1 m).getD (toString iv.1), iv.2)).reverse

/-- Embedding of label_probs.get(lbl, 0.0). -/
def probOf (m : List (Nat × String)) (p : List ℚ) (lbl : String) : ℚ :=
  (List.lookup lbl (labelProbsOf m p)).getD 0

/-- Embedding of the per-item decision cascade of predict, bert_service.py
lines 106-142: hard block keyword containment on the lowered text, then
warn keyword containment, then the block and warn probability thresholds,
and finally the raw model argmax. -/
def decideItem (cfg : Cfg) (m : List (Nat × String)) (p : List ℚ) (text : String) :
    ModResult :=
  if kwMatch hardBlockKeys (pyLower text) then
    ⟨"block", max (modelScore p) (mkRat 9 10)⟩
  else if kwMatch warnKeys (pyLower text) then
    ⟨"warn", max (probOf m p "warn") (mkRat 6 10)⟩
  else if cfg.blockThreshold ≤ probOf m p "block" then
    ⟨"block", probOf m p "block"⟩
  else if cfg.warnThreshold ≤ probOf m p "warn" then
    ⟨"warn", probOf m p "warn"⟩
  else
    ⟨modelLabel m p, modelScore p⟩

/-- A loaded classifier snapshot as predict sees it: the two enriched label
sources it may probe, and the classification function (tokenizer plus
model or onnx session, an external collaborator per the spec) producing one
probability distribution per input. -/
structure Classifier where
  metaSrc : SrcAttempt
  manifestSrc : SrcAttempt
  classify : List String → List (List ℚ)

/-- Embedding of predict in services/bert_service.py: with no classifier
loaded the heuristic path answers (line 30); otherwise the label space is
resolved once and each input is decided by the cascade over its
distribution (the source loop pairs probs[i] with batch[i]).  The blanket
exception fallback to the heuristic (line 146) is modelled per label
source inside SrcAttempt; classify is total here, matching the abstraction
the spec prescribes for the external classifier. -/
def predict (cfg : Cfg) (phobert : Option Classifier) (batch : List String) :
    List ModResult :=
  match phobert with
  | none => heuristicResults batch
  | some c =>
    let m := resolveId2Label cfg.labelMap c.metaSrc c.manifestSrc
    List.zipWith (decideItem cfg m) (c.classify batch) batch

/-- The in-memory per-session rate-limit table app.state._asr_rl of
routers/asr.py, mapping a session key to the last recorded arrival time in
milliseconds. -/
abbrev RLTable := List (String × Int)

/-- Dict assignment rl[sid] = t: prepend the binding; List.lookup returns
the most recent one, which models overwrite. -/
def rlSet (st : RLTable) (sid : String) (t : Int) : RLTable :=
  (sid, t) :: st

/-- Embedding of the admission check of routers/asr.py lines 30-37.  With a
positive interval: look up the session; the Python guard if last and
now_ms - last < min_interval rejects only when a binding exists, is nonzero
(0 is falsy in Python) and arrived less than the interval ago; otherwise
the arrival time is recorded.  With a non-positive interval the whole block
is skipped: always admit, nothing recorded. -/
def asrAdmit (minInterval : Int) (st : RLTable) (sid : String) (nowMs : Int) :
    Bool × RLTable :=
  if 0 < minInterval then
    match List.lookup sid st with
    | some last =>
      if last ≠ 0 ∧ nowMs - last < minInterval then (false, st)
      else (true, rlSet st sid nowMs)
    | none => (true, rlSet st sid nowMs)
  else (true, st)

/-- Caller-visible rejections of the chunk endpoint, routers/asr.py:
missing x-session-id (400), rate limit (429), empty body (400) and odd
PCM16LE length (400). -/
inductive AsrError
  | missingSessionId
  | rateLimited
  | emptyBody
  | malformedAudio
deriving DecidableEq, Repr

/-- One detection entry as assembled at routers/asr.py lines 60-67. -/
structure Detection where
  label : String
  score : ℚ
  startMs : Int
  endMs : Int
  snippet : String
deriving DecidableEq, Repr

/-- The final transcript payload, schemas/asr_schema.py ASRFinal. -/
structure ASRFinalMsg where
  text : String
  words : List String
deriving DecidableEq, Repr

/-- The partial transcript payload, schemas/asr_schema.py ASRPartial. -/
structure ASRPartialMsg where
  text : String
deriving DecidableEq, Repr

/-- The successful chunk response, schemas/asr_schema.py ASRResponse:
finalMsg and partialMsg embed the final and partial fields. -/
structure ASRResponse where
  status : String
  detections : List Detection
  finalMsg : Option ASRFinalMsg
  partialMsg : Option ASRPartialMsg
deriving DecidableEq, Repr

/-- Embedding of the moderation step of routers/asr.py lines 52-67: when
moderation is enabled and the stripped transcript is non-empty (Python
string truthiness), the decision engine is invoked on the stripped text and
each result becomes a detection with placeholder times and the snippet
text_for_mod[:100]; otherwise detections stays empty. -/
def mkDetections (runMod : Bool) (moderate : List String → List ModResult)
    (text : String) : List Detection :=
  if runMod ∧ pyStrip text ≠ "" then
    (moderate [pyStrip text]).map fun d =>
      ⟨d.label, d.score, 0, 0, strTake (pyStrip text) 100⟩
  else []

/-- Embedding of the response framing of routers/asr.py lines 69-75: a
truthy x-final packs the transcript into final (with empty words), else
into partial. -/
def mkPayload (xFinal : Option Bool) (text : String) (dets : List Detection) :
    ASRResponse :=
  if xFinal = some true then ⟨"ok", dets, some ⟨text, []⟩, none⟩
  else ⟨"ok", dets, none, some ⟨text⟩⟩

/-- Embedding of the stub transcript of services/asr_service.py lines 6-10,
used when no whisper model is loaded: a fixed short text for non-empty
input, the empty text otherwise. -/
def stubTranscribe (data : List Nat) : String :=
  if 0 < data.length then "xin chao" else ""

/-- Embedding of the asr_stream handler of routers/asr.py, after the shared
secret gate (an external collaborator per the spec).  In source order: the
falsy session id rejection (None or empty string), the admission check, the
empty body rejection, the odd-length rejection, transcription (an external
collaborator, passed as a function; stubTranscribe is its no-model
instance), the optional moderation step and the response framing.  The
returned table is the session table after the request. -/
def asr_stream (cfg : Cfg) (transcribe : List Nat → String)
    (moderate : List String → List ModResult)
    (st : RLTable) (nowMs : Int)
    (sessionId : Option String) (xFinal : Option Bool) (body : List Nat) :
    Except AsrError ASRResponse × RLTable :=
  match sessionId with
  | none => (Except.error AsrError.missingSessionId, st)
  | some sid =>
    if sid = "" then (Except.error AsrError.missingSessionId, st)
    else if (asrAdmit cfg.asrMinIntervalMs st sid nowMs).1 = false then
      (Except.error AsrError.rateLimited, (asrAdmit cfg.asrMinIntervalMs st sid nowMs).2)
    else if body.length = 0 then
      (Except.error AsrError.emptyBody, (asrAdmit cfg.asrMinIntervalMs st sid nowMs).2)
    else if body.length % 2 ≠ 0 then
      (Except.error AsrError.malformedAudio, (asrAdmit cfg.asrMinIntervalMs st sid nowMs).2)
    else
      (Except.ok (mkPayload xFinal (transcribe body)
          (mkDetections cfg.asrRunMod moderate (transcribe body))),
        (asrAdmit cfg.asrMinIntervalMs st sid nowMs).2)

/-- Embedding of the moderation endpoint, routers/moderation.py lines
14-20: the non-empty input list is handed to predict with whatever
classifier snapshot is loaded and the results are returned as is. -/
def moderationEndpoint (cfg : Cfg) (phobert : Option Classifier)
    (inputs : List String) : List ModResult :=
  predict cfg phobert inputs

theorem lookup_rlSet_self (st : RLTable) (sid : String) (t : Int) :
    List.lookup sid (rlSet st sid t) = some t := by
  simp [rlSet, List.lookup]

theorem asrAdmit_admitted_lookup (M : Int) (st : RLTable) (sid : String)
    (nowMs : Int) (hM : 0 < M) (res : RLTable)
    (h : asrAdmit M st sid nowMs = (true, res)) :
    List.lookup sid res = some nowMs := by
  unfold asrAdmit at h
  rw [if_pos hM] at h
  cases hlk : List.lookup sid st with
  | none =>
    simp only [hlk] at h
    cases h
    exact lookup_rlSet_self st sid nowMs
  | some last =>
    simp only [hlk] at h
    by_cases hc : last ≠ 0 ∧ nowMs - last < M
    · rw [if_pos hc] at h
      simp at h
    · rw [if_neg hc] at h
      cases h
      exact lookup_rlSet_self st sid nowMs

/-- C7: label space resolution is an ordered three-source cascade: a usable
classifier-metadata source wins; when it raised or is absent the colocated
manifest is tried; when that raised or is absent too, the inverse of the
configured fallback map is the answer, so resolution always terminates with
a mapping and never surfaces an error. -/
theorem resolve_label_cascade (lm : List (String × Nat)) (s1 s2 : SrcAttempt) :
    (∀ raw, s1 = Except.ok (some raw) →
        resolveId2Label lm s1 s2 = normalizeRaw lm raw) ∧
    ((s1 = Except.error () ∨ s1 = Except.ok none) →
      ∀ raw, s2 = Except.ok (some raw) →
        resolveId2Label lm s1 s2 = normalizeRaw lm raw) ∧
    ((s1 = Except.error () ∨ s1 = Except.ok none) →
      (s2 = Except.error () ∨ s2 = Except.ok none) →
        resolveId2Label lm s1 s2 = invMap lm) := by
  refine ⟨?_, ?_, ?_⟩
  · rintro raw rfl
    rfl
  · rintro (rfl | rfl) raw rfl <;> rfl
  · rintro (rfl | rfl) (rfl | rfl) <;> rfl

/-- Witness: with the classifier metadata raising and the manifest absent,
resolution lands on the inverse of the default configured map. -/
theorem resolve_label_cascade_witness :
    resolveId2Label [("safe", 0), ("warn", 1), ("block", 2)]
        (Except.error ()) (Except.ok none) =
      [(0, "safe"), (1, "warn"), (2, "block")] :=
  ((resolve_label_cascade [("safe", 0), ("warn", 1), ("block", 2)]
      (Except.error ()) (Except.ok none)).2.2 (Or.inl rfl) (Or.inr rfl)).trans rfl

/-- C8: in heuristic-only mode (no classifier loaded) batch moderation
returns exactly one result per input, in input order: (block, 0.95) when
the lowered text contains a block keyword, else (warn, 0.8) when it
contains a warn keyword, else (safe, 0.98). -/
theorem moderation_heuristic_batch (cfg : Cfg) (inputs : List String)
    (_hne : inputs ≠ []) :
    (moderationEndpoint cfg none inputs).length = inputs.length ∧
    ∀ i (hi : i < inputs.length),
      (moderationEndpoint cfg none inputs)[i]? =
        some (if kwMatch heuristicBlockKeys (pyLower inputs[i]) then
            ⟨"block", mkRat 95 100⟩
          else if kwMatch warnKeys (pyLower inputs[i]) then ⟨"warn", mkRat 8 10⟩
          else ⟨"safe", mkRat 98 100⟩) := by
  constructor
  · simp [moderationEndpoint, predict, heuristicResults]
  · intro i hi
    simp [moderationEndpoint, predict, heuristicResults,
      List.getElem?_map, List.getElem?_eq_getElem hi]

/-- Witness: the heuristic batch result at a concrete block-keyword input. -/
theorem moderation_heuristic_batch_witness :
    (["đồ ngu quá"] : List String) ≠ [] ∧
    (moderationEndpoint
        ⟨[("safe", 0), ("warn", 1), ("block", 2)], 1, 1, 0, false⟩ none
        ["đồ ngu quá"])[0]? = some ⟨"block", mkRat 95 100⟩ := by
  constructor
  · decide
  · have h := (moderation_heuristic_batch
        ⟨[("safe", 0), ("warn", 1), ("block", 2)], 1, 1, 0, false⟩
        ["đồ ngu quá"] (by decide)).2 0 (by decide)
    rw [h]
    rfl

/-- C1: in model-assisted mode with no keyword match the decision follows
the thresholds: block probability at or above blockThreshold gives block
with that probability, else warn probability at or above warnThreshold
gives warn, else the raw model argmax label with its probability (the
argmax label is whatever the resolved mapping holds, so it may lie outside
safe, warn, block). -/
theorem decideItem_threshold_cascade (cfg : Cfg) (m : List (Nat × String))
    (p : List ℚ) (text : String)
    (hb : kwMatch hardBlockKeys (pyLower text) = false)
    (hw : kwMatch warnKeys (pyLower text) = false) :
    decideItem cfg m p text =
      if cfg.blockThreshold ≤ probOf m p "block" then
        ⟨"block", probOf m p "block"⟩
      else if cfg.warnThreshold ≤ probOf m p "warn" then
        ⟨"warn", probOf m p "warn"⟩
      else ⟨modelLabel m p, modelScore p⟩ := by
  simp [decideItem, hb, hw]

/-- Witness: blockThreshold 0.9, block probability 0.95, no keyword match,
decision is (block, 0.95), the spec threshold example. -/
theorem decideItem_threshold_cascade_witness :
    decideItem
        ⟨[("safe", 0), ("warn", 1), ("block", 2)], mkRat 9 10, mkRat 8 10, 0, false⟩
        [(0, "safe"), (1, "warn"), (2, "block")]
        [mkRat 1 20, 0, mkRat 95 100] "xin chao" = ⟨"block", mkRat 95 100⟩ := by
  rw [decideItem_threshold_cascade _ _ _ _ (by decide) (by decide)]
  decide

/-- C2: in model-assisted mode a block keyword match decides
(block, max(modelArgmaxScore, 0.9)) whatever the distribution says.  The
hypothesis that the distribution is non-empty mirrors the source, which
computes the argmax before the keyword checks and would abandon the model
path on an empty distribution. -/
theorem decideItem_block_keyword_override (cfg : Cfg) (m : List (Nat × String))
    (p : List ℚ) (text : String) (_hp : p ≠ [])
    (hb : kwMatch hardBlockKeys (pyLower text) = true) :
    decideItem cfg m p text = ⟨"block", max (modelScore p) (mkRat 9 10)⟩ := by
  simp [decideItem, hb]

/-- Witness: the model puts all mass on safe, yet a block keyword in the
text decides block, with score max(1, 0.9) = 1. -/
theorem decideItem_block_keyword_override_witness :
    modelLabel [(0, "safe"), (1, "warn"), (2, "block")] [1, 0, 0] = "safe" ∧
    decideItem
        ⟨[("safe", 0), ("warn", 1), ("block", 2)], mkRat 9 10, mkRat 8 10, 0, false⟩
        [(0, "safe"), (1, "warn"), (2, "block")] [1, 0, 0] "đồ ngu quá"
      = ⟨"block", 1⟩ := by
  constructor
  · decide
  · rw [decideItem_block_keyword_override _ _ _ _ (by decide) (by decide)]
    decide

/-- C3 counterexample: a recorded admission for session s exists (timestamp
0) and only 500 ms of a 1000 ms interval have elapsed, yet the chunk is
admitted and the record overwritten, because the Python guard
if last and ... treats a recorded 0 as no record. -/
theorem asrAdmit_zero_record_counterexample :
    asrAdmit 1000 [("s", 0)] "s" 500 = (true, [("s", 500), ("s", 0)]) := by
  decide

/-- C3 amended: for a positive interval M, a chunk is rejected RateLimited
with the table untouched when a nonzero recorded timestamp exists and less
than M ms have elapsed; it is admitted with the record overwritten by the
arrival time when no record exists or at least M ms have elapsed past the
nonzero record (a recorded 0 behaves like no record). -/
theorem asrAdmit_rate_limit (M nowMs : Int) (st : RLTable) (sid : String)
    (hM : 0 < M) :
    (∀ last, List.lookup sid st = some last → last ≠ 0 →
      ((nowMs - last < M → asrAdmit M st sid nowMs = (false, st)) ∧
        (M ≤ nowMs - last →
          asrAdmit M st sid nowMs = (true, rlSet st sid nowMs)))) ∧
    (List.lookup sid st = none →
      asrAdmit M st sid nowMs = (true, rlSet st sid nowMs)) ∧
    (∀ res, asrAdmit M st sid nowMs = (true, res) →
      List.lookup sid res = some nowMs) := by
  refine ⟨?_, ?_, fun res h => asrAdmit_admitted_lookup M st sid nowMs hM res h⟩
  · intro last hlk hlz
    unfold asrAdmit
    rw [if_pos hM]
    simp only [hlk]
    constructor
    · intro hlt
      rw [if_pos ⟨hlz, hlt⟩]
    · intro hge
      rw [if_neg (by omega)]
  · intro hlk
    unfold asrAdmit
    rw [if_pos hM]
    simp only [hlk]

/-- Witness: with a 1000 ms interval and a record at 100, the chunk at 1100
(exactly the interval later) is admitted and the visible record becomes
1100; a chunk at 600 would have been rejected with the table unchanged. -/
theorem asrAdmit_rate_limit_witness :
    asrAdmit 1000 [("s", 100)] "s" 1100 = (true, [("s", 1100), ("s", 100)]) ∧
    asrAdmit 1000 [("s", 100)] "s" 600 = (false, [("s", 100)]) := by
  constructor
  · have h := ((asrAdmit_rate_limit 1000 1100 [("s", 100)] "s"
        (by decide)).1 100 (by decide) (by decide)).2 (by decide)
    exact h.trans rfl
  · have h := ((asrAdmit_rate_limit 1000 600 [("s", 100)] "s"
        (by decide)).1 100 (by decide) (by decide)).1 (by decide)
    exact h

/-- C4 counterexample: with the interval at 0 the chunk is admitted but
nothing is recorded for the session, against the claim that the arrival
time is still recorded for bookkeeping: the whole rate-limit block is
skipped. -/
theorem asrAdmit_disabled_counterexample :
    (asrAdmit 0 [] "s" 123).1 = true ∧
    List.lookup "s" (asrAdmit 0 [] "s" 123).2 = none := by
  decide

/-- C4 amended: a non-positive interval disables rate limiting entirely:
every chunk of every session is admitted and the session table is left
untouched (no arrival time is recorded). -/
theorem asrAdmit_disabled (M nowMs : Int) (st : RLTable) (sid : String)
    (hM : M ≤ 0) :
    asrAdmit M st sid nowMs = (true, st) := by
  unfold asrAdmit
  rw [if_neg (by omega)]

/-- Witness: interval 0, an unrelated record present, a chunk at 9 is
admitted and the table is exactly what it was. -/
theorem asrAdmit_disabled_witness :
    asrAdmit 0 [("a", 5)] "s" 9 = (true, [("a", 5)]) :=
  asrAdmit_disabled 0 9 [("a", 5)] "s" (by decide)

theorem asr_stream_state_eq (cfg : Cfg) (t : List Nat → String)
    (mo : List String → List ModResult) (st : RLTable) (nowMs : Int)
    (sid : String) (xf : Option Bool) (body : List Nat) (hsid : sid ≠ "") :
    (asr_stream cfg t mo st nowMs (some sid) xf body).2 =
      (asrAdmit cfg.asrMinIntervalMs st sid nowMs).2 := by
  simp only [asr_stream, if_neg hsid]
  split
  · rfl
  · split
    · rfl
    · split
      · rfl
      · rfl

theorem asr_stream_result_admitted (cfg : Cfg) (t : List Nat → String)
    (mo : List String → List ModResult) (st : RLTable) (nowMs : Int)
    (sid : String) (xf : Option Bool) (body : List Nat) (hsid : sid ≠ "")
    (hadm : (asrAdmit cfg.asrMinIntervalMs st sid nowMs).1 = true) :
    (asr_stream cfg t mo st nowMs (some sid) xf body).1 =
      if body.length = 0 then Except.error AsrError.emptyBody
      else if body.length % 2 ≠ 0 then Except.error AsrError.malformedAudio
      else Except.ok (mkPayload xf (t body)
        (mkDetections cfg.asrRunMod mo (t body))) := by
  simp only [asr_stream, if_neg hsid, hadm]
  split
  · simp_all
  · split
    · rfl
    · split
      · rfl
      · rfl

theorem asr_stream_ok_shape (cfg : Cfg) (t : List Nat → String)
    (mo : List String → List ModResult) (st : RLTable) (nowMs : Int)
    (sidO : Option String) (xf : Option Bool) (body : List Nat)
    (resp : ASRResponse)
    (hres : (asr_stream cfg t mo st nowMs sidO xf body).1 = Except.ok resp) :
    resp = mkPayload xf (t body) (mkDetections cfg.asrRunMod mo (t body)) := by
  cases sidO with
  | none => simp [asr_stream] at hres
  | some sid =>
    by_cases hsid : sid = ""
    · simp [asr_stream, hsid] at hres
    · by_cases hadm : (asrAdmit cfg.asrMinIntervalMs st sid nowMs).1 = true
      · rw [asr_stream_result_admitted cfg t mo st nowMs sid xf body hsid hadm]
          at hres
        by_cases h0 : body.length = 0
        · rw [if_pos h0] at hres
          simp at hres
        · rw [if_neg h0] at hres
          by_cases h2 : body.length % 2 ≠ 0
          · rw [if_pos h2] at hres
            simp at hres
          · rw [if_neg h2] at hres
            injection hres with h3
            exact h3.symm
      · have hfalse : (asrAdmit cfg.asrMinIntervalMs st sid nowMs).1 = false := by
          cases h : (asrAdmit cfg.asrMinIntervalMs st sid nowMs).1
          · rfl
          · exact absurd h hadm
        simp [asr_stream, hsid, hfalse] at hres

/-- C5 counterexample: with rate limiting enabled (interval 1000), a fresh
session has no recorded timestamp, yet a 1-byte (odd) chunk at time 5 is
rejected MalformedAudio AND the session table now records 5: admission ran,
and mutated the table, before PCM validation. -/
theorem validation_order_counterexample :
    (asr_stream ⟨[("safe", 0), ("warn", 1), ("block", 2)], 1, 1, 1000, false⟩
        stubTranscribe heuristicResults [] 5 (some "s") none [1]).1
      = Except.error AsrError.malformedAudio ∧
    (asr_stream ⟨[("safe", 0), ("warn", 1), ("block", 2)], 1, 1, 1000, false⟩
        stubTranscribe heuristicResults [] 5 (some "s") none [1]).2
      = [("s", 5)] :=
  ⟨rfl, rfl⟩

/-- C5 amended: admission control precedes body and PCM validation: when
rate limiting is enabled, any chunk rejected EmptyBody or MalformedAudio
has already been admitted and the session record has been overwritten with
this arrival time (it is not left as it was before the request). -/
theorem rejected_chunk_still_recorded (cfg : Cfg) (t : List Nat → String)
    (mo : List String → List ModResult) (st : RLTable) (nowMs : Int)
    (sid : String) (xf : Option Bool) (body : List Nat)
    (hM : 0 < cfg.asrMinIntervalMs)
    (hres :
      (asr_stream cfg t mo st nowMs (some sid) xf body).1 =
          Except.error AsrError.emptyBody ∨
        (asr_stream cfg t mo st nowMs (some sid) xf body).1 =
          Except.error AsrError.malformedAudio) :
    List.lookup sid (asr_stream cfg t mo st nowMs (some sid) xf body).2 =
      some nowMs := by
  by_cases hsid : sid = ""
  · simp [asr_stream, hsid] at hres
  · by_cases hadm : (asrAdmit cfg.asrMinIntervalMs st sid nowMs).1 = true
    · rw [asr_stream_state_eq cfg t mo st nowMs sid xf body hsid]
      rcases h : asrAdmit cfg.asrMinIntervalMs st sid nowMs with ⟨b, st1⟩
      rw [h] at hadm
      subst hadm
      exact asrAdmit_admitted_lookup cfg.asrMinIntervalMs st sid nowMs hM st1 h
    · have hfalse : (asrAdmit cfg.asrMinIntervalMs st sid nowMs).1 = false := by
        cases h : (asrAdmit cfg.asrMinIntervalMs st sid nowMs).1
        · rfl
        · exact absurd h hadm
      simp [asr_stream, hsid, hfalse] at hres

/-- Witness: at the concrete malformed chunk of the counterexample, the
amended statement confirms the recorded timestamp is the arrival time 5. -/
theorem rejected_chunk_still_recorded_witness :
    List.lookup "s"
        (asr_stream ⟨[("safe", 0), ("warn", 1), ("block", 2)], 1, 1, 1000, false⟩
          stubTranscribe heuristicResults [] 5 (some "s") none [1]).2
      = some 5 :=
  rejected_chunk_still_recorded
    ⟨[("safe", 0), ("warn", 1), ("block", 2)], 1, 1, 1000, false⟩
    stubTranscribe heuristicResults [] 5 "s" none [1] (by decide) (Or.inr rfl)

/-- C6 counterexample: an empty payload with a session id does not proceed
to transcription; it is rejected EmptyBody (rate limiting disabled here so
admission is not involved). -/
theorem empty_body_counterexample :
    (asr_stream ⟨[("safe", 0), ("warn", 1), ("block", 2)], 1, 1, 0, false⟩
        stubTranscribe heuristicResults [] 5 (some "s") none []).1
      = Except.error AsrError.emptyBody :=
  rfl

/-- C6 amended: for a chunk carrying a non-empty session identifier that
admission does not reject: the result is MalformedAudio exactly when the
payload length is odd; a non-empty even-length payload proceeds to
transcription and succeeds; the empty payload is rejected EmptyBody before
PCM validation rather than being transcribed. -/
theorem pcm_validation (cfg : Cfg) (t : List Nat → String)
    (mo : List String → List ModResult) (st : RLTable) (nowMs : Int)
    (sid : String) (xf : Option Bool) (body : List Nat) (hsid : sid ≠ "")
    (hadm : (asrAdmit cfg.asrMinIntervalMs st sid nowMs).1 = true) :
    ((asr_stream cfg t mo st nowMs (some sid) xf body).1 =
        Except.error AsrError.malformedAudio ↔ body.length % 2 = 1) ∧
    (body = [] →
      (asr_stream cfg t mo st nowMs (some sid) xf body).1 =
        Except.error AsrError.emptyBody) ∧
    (body ≠ [] → body.length % 2 = 0 →
      (asr_stream cfg t mo st nowMs (some sid) xf body).1 =
        Except.ok (mkPayload xf (t body)
          (mkDetections cfg.asrRunMod mo (t body)))) := by
  rw [asr_stream_result_admitted cfg t mo st nowMs sid xf body hsid hadm]
  refine ⟨?_, ?_, ?_⟩
  · by_cases h0 : body.length = 0
    · rw [if_pos h0]
      constructor
      · intro h
        simp at h
      · intro h
        omega
    · rw [if_neg h0]
      by_cases h2 : body.length % 2 ≠ 0
      · rw [if_pos h2]
        constructor
        · intro _
          omega
        · intro _
          rfl
      · rw [if_neg h2]
        constructor
        · intro h
          simp at h
        · intro h
          omega
  · intro hb
    subst hb
    rfl
  · intro hb h2
    have h0 : ¬ body.length = 0 := by
      cases body
      · exact absurd rfl hb
      · simp
    rw [if_neg h0, if_neg (by omega)]

/-- Witness: a 2-byte chunk on a session with rate limiting disabled is
transcribed and answered ok; the evaluation also fixes the exact payload. -/
theorem pcm_validation_witness :
    (asr_stream ⟨[("safe", 0), ("warn", 1), ("block", 2)], 1, 1, 0, false⟩
        stubTranscribe heuristicResults [] 5 (some "s") none [1, 2]).1
      = Except.ok (mkPayload none (stubTranscribe [1, 2])
          (mkDetections false heuristicResults (stubTranscribe [1, 2]))) :=
  (pcm_validation ⟨[("safe", 0), ("warn", 1), ("block", 2)], 1, 1, 0, false⟩
    stubTranscribe heuristicResults [] 5 "s" none [1, 2]
    (by decide) (by decide)).2.2 (by decide) (by decide)

/-- C9: every successful chunk response carries exactly one of the final
and partial fields: final holding the transcript when the caller sent a
truthy final flag, partial holding the transcript otherwise. -/
theorem response_framing (cfg : Cfg) (t : List Nat → String)
    (mo : List String → List ModResult) (st : RLTable) (nowMs : Int)
    (sidO : Option String) (xf : Option Bool) (body : List Nat)
    (resp : ASRResponse)
    (hres : (asr_stream cfg t mo st nowMs sidO xf body).1 = Except.ok resp) :
    (xf = some true →
      resp.finalMsg = some ⟨t body, []⟩ ∧ resp.partialMsg = none) ∧
    (¬ xf = some true →
      resp.finalMsg = none ∧ resp.partialMsg = some ⟨t body⟩) := by
  have hshape := asr_stream_ok_shape cfg t mo st nowMs sidO xf body resp hres
  subst hshape
  constructor
  · intro hxf
    rw [mkPayload, if_pos hxf]
    exact ⟨rfl, rfl⟩
  · intro hxf
    rw [mkPayload, if_neg hxf]
    exact ⟨rfl, rfl⟩

/-- Witness: a final-flagged chunk packs the stub transcript into final and
leaves partial empty. -/
theorem response_framing_witness :
    (⟨"ok", [], some ⟨"xin chao", []⟩, none⟩ : ASRResponse).finalMsg
        = some ⟨stubTranscribe [1, 2], []⟩ ∧
    (⟨"ok", [], some ⟨"xin chao", []⟩, none⟩ : ASRResponse).partialMsg = none :=
  (response_framing ⟨[("safe", 0), ("warn", 1), ("block", 2)], 1, 1, 0, false⟩
    stubTranscribe heuristicResults [] 5 (some "s") (some true) [1, 2]
    ⟨"ok", [], some ⟨"xin chao", []⟩, none⟩ rfl).1 rfl

theorem strTake_length_le (s : String) (n : Nat) : (strTake s n).length ≤ n := by
  have h : (strTake s n).length = (s.data.take n).length := rfl
  rw [h, List.length_take]
  exact Nat.min_le_left n s.data.length

/-- C10: with streaming moderation enabled, a blank (empty or whitespace
only) transcript yields an empty detections list no matter what the
decision engine would answer (it is not consulted: the conclusion holds for
every moderate function); and every emitted detection carries startMs 0,
endMs 0 and a snippet equal to the first 100 characters of the stripped
transcript, hence at most 100 characters of it. -/
theorem moderation_blank_and_detection_shape (cfg : Cfg)
    (t : List Nat → String) (mo : List String → List ModResult)
    (st : RLTable) (nowMs : Int) (sidO : Option String) (xf : Option Bool)
    (body : List Nat) (resp : ASRResponse)
    (_hmod : cfg.asrRunMod = true)
    (hres : (asr_stream cfg t mo st nowMs sidO xf body).1 = Except.ok resp) :
    (pyStrip (t body) = "" → resp.detections = []) ∧
    (∀ d ∈ resp.detections,
      d.startMs = 0 ∧ d.endMs = 0 ∧
        d.snippet = strTake (pyStrip (t body)) 100 ∧ d.snippet.length ≤ 100) := by
  have hshape := asr_stream_ok_shape cfg t mo st nowMs sidO xf body resp hres
  subst hshape
  have hdet : (mkPayload xf (t body)
      (mkDetections cfg.asrRunMod mo (t body))).detections
      = mkDetections cfg.asrRunMod mo (t body) := by
    rw [mkPayload]
    split
    · rfl
    · rfl
  rw [hdet]
  constructor
  · intro hblank
    rw [mkDetections, if_neg (by simp [hblank])]
  · intro d hd
    rw [mkDetections] at hd
    by_cases hc : cfg.asrRunMod = true ∧ pyStrip (t body) ≠ ""
    · rw [if_pos hc] at hd
      rcases List.mem_map.mp hd with ⟨d0, _, rfl⟩
      exact ⟨rfl, rfl, rfl, strTake_length_le (pyStrip (t body)) 100⟩
    · rw [if_neg hc] at hd
      simp at hd

/-- Witness: with moderation on and a whitespace-only transcript, the
concrete response carries no detections. -/
theorem moderation_blank_witness :
    (⟨"ok", [], none, some ⟨" "⟩⟩ : ASRResponse).detections = [] :=
  (moderation_blank_and_detection_shape
    ⟨[("safe", 0), ("warn", 1), ("block", 2)], 1, 1, 0, true⟩
    (fun _ => " ") heuristicResults [] 5 (some "s") none [1, 2]
    ⟨"ok", [], none, some ⟨" "⟩⟩ rfl rfl).1 rfl

end VSG
